import Mathlib

/-!
Shallow embedding of `scripts/font-squirrel-translator.py` (FontGet).

Python strings are modelled as `List Char`; a `dict.get(key, default)`
whose default is the empty string (and whose value is only ever tested for
truthiness or copied) is modelled as a plain `List Char` field where `[]`
stands for "missing or empty", while a `get` whose default differs from the
missing value is modelled as an `Option (List Char)` field.  The Python
standard-library pair `datetime.fromisoformat` / `datetime.isoformat`
(which is not part of this repository) is abstracted as a parameter
`normIso : List Char → Option (List Char)`: `none` models a `ValueError`
from `fromisoformat`, and `some t` models a successful parse followed by
re-rendering via `isoformat()`.
-/

namespace FontSquirrel

/-- Python `needle in hay` substring containment on character lists. -/
def containsIn (needle hay : List Char) : Bool :=
  decide (needle <:+: hay)

/-- Python `str.lower()` (the strings involved are ASCII). -/
def pyLower (s : List Char) : List Char :=
  s.map Char.toLower

/-- Python `str.replace(old, new)` for a single-character `old`. -/
def replaceChar (old : Char) (new : List Char) (s : List Char) : List Char :=
  (s.map (fun c => if c = old then new else [c])).flatten

/-- Lowercased name with each space replaced by a hyphen — the slug used
for `family_urlname` defaults and variant URL names (lines 98, 183–184). -/
def slugOfName (s : List Char) : List Char :=
  (pyLower s).map (fun c => if c = ' ' then '-' else c)

/-- The derived slug key (lines 52 and 309): lowercased family name with
spaces and then underscores replaced by hyphens, prefixed by "squirrel.". -/
def fontKey (family_name : List Char) : List Char :=
  "squirrel.".data ++ (slugOfName family_name).map (fun c => if c = '_' then '-' else c)

/-- One element of the raw record's `font_files` list.  `name` defaults to
`"Regular"` when missing (line 145); the URLs are only tested for
truthiness, so `[]` models "missing or empty". -/
structure FileInfo where
  name : Option (List Char)
  ttf_url : List Char
  otf_url : List Char
deriving DecidableEq

/-- A raw Font Squirrel API record, restricted to the keys the translator
reads.  `license_name` models `font_data.get("license", {}).get("name", "Unknown")`,
`classification_name` models `classification.get("name", ...)`,
`version` models `get("version", "1.0")` and `family_urlname` models
`get("family_urlname", <derived slug>)`; for each of these the missing key is
`none`.  The remaining string fields default to the empty string. -/
structure RawFont where
  family_name : List Char
  license_name : Option (List Char)
  license_url : List Char
  designer : List Char
  foundry : List Char
  classification_name : Option (List Char)
  is_free : Bool
  description : List Char
  short_description : List Char
  version : Option (List Char)
  updated_at : List Char
  family_urlname : Option (List Char)
  font_files : List FileInfo
deriving DecidableEq

/-- A single output variant (the dicts built at lines 157–163 and 191–197). -/
structure Variant where
  name : List Char
  weight : Nat
  style : List Char
  subsets : List (List Char)
  files : List (List Char × List Char)
deriving DecidableEq

/-- The output FontEntry: the dict returned at lines 107–126. -/
structure FontEntry where
  name : List Char
  family : List Char
  license : List Char
  license_url : List Char
  designer : List Char
  foundry : List Char
  version : List Char
  description : List Char
  categories : List (List Char)
  tags : List (List Char)
  popularity : Nat
  last_modified : List Char
  metadata_url : List Char
  source_url : List Char
  variants : List Variant
  unicode_ranges : List (List Char)
  languages : List (List Char)
  sample_text : List Char
deriving DecidableEq

/-- `_parse_weight` (lines 201–224): case-insensitive substring checks in
source order, first match wins. -/
def parseWeight (variant_name : List Char) : Nat :=
  let l := pyLower variant_name
  if containsIn "thin".data l || containsIn "hairline".data l then 100
  else if containsIn "extra-light".data l || containsIn "ultra-light".data l then 200
  else if containsIn "light".data l then 300
  else if containsIn "regular".data l || containsIn "normal".data l then 400
  else if containsIn "medium".data l then 500
  else if containsIn "semi-bold".data l || containsIn "demi-bold".data l then 600
  else if containsIn "bold".data l then 700
  else if containsIn "extra-bold".data l || containsIn "ultra-bold".data l then 800
  else if containsIn "black".data l || containsIn "heavy".data l then 900
  else 400

/-- `_parse_style` (lines 226–233). -/
def parseStyle (variant_name : List Char) : List Char :=
  let l := pyLower variant_name
  if containsIn "italic".data l || containsIn "oblique".data l then "italic".data
  else "normal".data

/-- `_calculate_popularity` (lines 235–260), with the same sequential
accumulation as the source. -/
def calculatePopularity (r : RawFont) : Nat :=
  let score := 50
  let score := if r.is_free then score + 20 else score
  let score := if !r.description.isEmpty || !r.short_description.isEmpty then score + 10 else score
  let score := if !r.designer.isEmpty then score + 10 else score
  let score := if !r.foundry.isEmpty then score + 5 else score
  let score := if 1 < r.font_files.length then score + min (r.font_files.length * 2) 15 else score
  min score 100

/-- `family_urlname` with its derived default (lines 98 and 183). -/
def familyUrlname (r : RawFont) : List Char :=
  r.family_urlname.getD (slugOfName r.family_name)

/-- Processing of one explicit `font_files` entry (lines 144–163): `none`
when neither URL is present, so the entry is skipped. -/
def variantOfFile (f : FileInfo) : Option Variant :=
  let vname := f.name.getD "Regular".data
  let files := (if f.ttf_url.isEmpty then [] else [("ttf".data, f.ttf_url)])
      ++ (if f.otf_url.isEmpty then [] else [("otf".data, f.otf_url)])
  if files.isEmpty then none
  else some ⟨vname, parseWeight vname, parseStyle vname, ["latin".data], files⟩

/-- The fallback table of common variant patterns (lines 169–179). -/
def variantPatterns : List (List Char × Nat × List Char) :=
  [("Regular".data, 400, "normal".data),
   ("Bold".data, 700, "normal".data),
   ("Italic".data, 400, "italic".data),
   ("Bold Italic".data, 700, "italic".data),
   ("Light".data, 300, "normal".data),
   ("Medium".data, 500, "normal".data),
   ("Semi Bold".data, 600, "normal".data),
   ("Extra Bold".data, 800, "normal".data),
   ("Black".data, 900, "normal".data)]

/-- One synthesized fallback variant (lines 181–197). -/
def fallbackVariant (r : RawFont) (p : List Char × Nat × List Char) : Variant :=
  ⟨r.family_name ++ " ".data ++ p.1, p.2.1, p.2.2, ["latin".data],
   [("ttf".data,
     "https://www.fontsquirrel.com/fonts/download/".data ++ familyUrlname r
       ++ "/".data ++ slugOfName p.1)]⟩

/-- `_extract_variants` (lines 132–199): explicit file list when non-empty,
otherwise the fallback table; the result is truncated to 5 in both cases. -/
def extractVariants (r : RawFont) : List Variant :=
  (if !r.font_files.isEmpty then r.font_files.filterMap variantOfFile
   else variantPatterns.map (fallbackVariant r)).take 5

/-- `_extract_unicode_ranges` (lines 262–274). -/
def extractUnicodeRanges (r : RawFont) : List (List Char) :=
  let cn := pyLower (r.classification_name.getD [])
  if containsIn "latin".data cn || containsIn "sans".data cn || containsIn "serif".data cn
  then ["U+0000-00FF".data, "U+0100-017F".data]
  else ["U+0000-00FF".data]

/-- `_extract_languages` (lines 276–288). -/
def extractLanguages (r : RawFont) : List (List Char) :=
  let cn := pyLower (r.classification_name.getD [])
  if containsIn "latin".data cn || containsIn "sans".data cn || containsIn "serif".data cn
  then ["Latin".data, "Latin Extended".data]
  else ["Latin".data]

/-- The `last_modified` computation (lines 88–95): every letter Z of
`updated_at` is replaced by "+00:00" and the result fed to the abstracted
ISO round-trip `normIso`; on success the rendering gets a trailing "Z"
appended, on failure or absence the result is the empty string. -/
def lastModified (normIso : List Char → Option (List Char)) (r : RawFont) : List Char :=
  if r.updated_at.isEmpty then []
  else
    match normIso (replaceChar 'Z' "+00:00".data r.updated_at) with
    | some rendered => rendered ++ "Z".data
    | none => []

/-- `transform_font` (lines 43–130).  The pure model raises no exceptions,
so the only `None` outcome is the empty/missing family name (lines 47–49). -/
def transformFont (normIso : List Char → Option (List Char)) (r : RawFont) :
    Option FontEntry :=
  if r.family_name.isEmpty then none
  else
    let category := r.classification_name.getD "Other".data
    let classTags :=
      match r.classification_name with
      | some n => if n.isEmpty then [] else [slugOfName n]
      | none => []
    let furl := familyUrlname r
    some {
      name := r.family_name
      family := r.family_name
      license := r.license_name.getD "Unknown".data
      license_url := r.license_url
      designer := r.designer
      foundry := r.foundry
      version := r.version.getD "1.0".data
      description :=
        if r.description.isEmpty && !r.short_description.isEmpty
        then r.short_description else r.description
      categories := if category = "Other".data then [] else [category]
      tags := classTags ++ [if r.is_free then "free".data else "commercial".data]
      popularity := calculatePopularity r
      last_modified := lastModified normIso r
      metadata_url := "https://www.fontsquirrel.com/api/familyinfo/".data ++ furl
      source_url := "https://www.fontsquirrel.com/fonts/".data ++ furl
      variants := extractVariants r
      unicode_ranges := extractUnicodeRanges r
      languages := extractLanguages r
      sample_text := "The quick brown fox jumps over the lazy dog".data }

/-- Python dict insertion `fonts[font_id] = transformed` on an association
list: an existing key keeps its position and gets the new value, a new key
is appended. -/
def dictInsert (m : List (List Char × FontEntry)) (k : List Char) (v : FontEntry) :
    List (List Char × FontEntry) :=
  match m with
  | [] => [(k, v)]
  | (k', v') :: t => if k' = k then (k, v) :: t else (k', v') :: dictInsert t k v

/-- Python dict lookup on the association-list model. -/
def dictLookup (m : List (List Char × FontEntry)) (k : List Char) : Option FontEntry :=
  match m with
  | [] => none
  | (k', v) :: t => if k' = k then some v else dictLookup t k

/-- The mutable state of the loop in `translate` (lines 301–325). -/
structure TranslateState where
  fonts : List (List Char × FontEntry)
  processed : Nat
  skipped : Nat
deriving DecidableEq

/-- One iteration of the loop in `translate` (lines 305–325): a successful
transform inserts under the derived key and bumps `processed`, a `None`
bumps `skipped`. -/
def translateStep (normIso : List Char → Option (List Char))
    (st : TranslateState) (r : RawFont) : TranslateState :=
  match transformFont normIso r with
  | some e => ⟨dictInsert st.fonts (fontKey r.family_name) e, st.processed + 1, st.skipped⟩
  | none => ⟨st.fonts, st.processed, st.skipped + 1⟩

/-- The output document restricted to the fields the claims mention:
`source_info.total_fonts` (line 338, `len(fonts)`) and the `fonts` mapping.
The other header fields are constants or a wall-clock timestamp. -/
structure SourceDocument where
  total_fonts : Nat
  fonts : List (List Char × FontEntry)
deriving DecidableEq

/-- `translate` (lines 290–343) applied to an already-fetched record list:
an empty fetch short-circuits to the empty document (lines 296–298,
`_create_empty_source`). -/
def translate (normIso : List Char → Option (List Char)) (raws : List RawFont) :
    SourceDocument :=
  if raws.isEmpty then ⟨0, []⟩
  else
    let st := raws.foldl (translateStep normIso) ⟨[], 0, 0⟩
    ⟨st.fonts.length, st.fonts⟩

/-- The number of records that transform successfully. -/
def successCount (normIso : List Char → Option (List Char)) (raws : List RawFont) : Nat :=
  (raws.filter (fun r => (transformFont normIso r).isSome)).length

/-- The keys derived from the records that transform successfully, in order. -/
def successKeys (normIso : List Char → Option (List Char)) (raws : List RawFont) :
    List (List Char) :=
  (raws.filter (fun r => (transformFont normIso r).isSome)).map (fun r => fontKey r.family_name)

/-- Modelled from the spec: the weight parser priority table — thin/hairline
100, extra-light/ultra-light 200, light 300, regular/normal 400, medium 500,
semi-bold/demi-bold 600, bold 700, extra-bold/ultra-bold 800, black/heavy 900. -/
def weightTable : List (List (List Char) × Nat) :=
  [(["thin".data, "hairline".data], 100),
   (["extra-light".data, "ultra-light".data], 200),
   (["light".data], 300),
   (["regular".data, "normal".data], 400),
   (["medium".data], 500),
   (["semi-bold".data, "demi-bold".data], 600),
   (["bold".data], 700),
   (["extra-bold".data, "ultra-bold".data], 800),
   (["black".data, "heavy".data], 900)]

/-- Modelled from the spec: first-match-wins lookup over a priority table,
defaulting to 400 when no row matches. -/
def firstMatch (l : List Char) : List (List (List Char) × Nat) → Nat
  | [] => 400
  | e :: t => if e.1.any (fun n => containsIn n l) then e.2 else firstMatch l t

/-- Modelled from the spec: case-insensitive substring match against the
variant name, first match wins, in the priority order of `weightTable`. -/
def parseWeightSpec (s : List Char) : Nat :=
  firstMatch (pyLower s) weightTable

/-- Modelled from the spec: base 50 plus independent bonuses, clamped at 100. -/
def popularitySpec (r : RawFont) : Nat :=
  min (50 + (if r.is_free then 20 else 0)
         + (if !r.description.isEmpty || !r.short_description.isEmpty then 10 else 0)
         + (if !r.designer.isEmpty then 10 else 0)
         + (if !r.foundry.isEmpty then 5 else 0)
         + (if 1 < r.font_files.length then min (r.font_files.length * 2) 15 else 0)) 100

/-- A concrete instantiation of the abstracted ISO round-trip in which every
parse fails; used only to build closed instances (the records fed to it
below carry no `updated_at`, so their output does not depend on it). -/
def noIso : List Char → Option (List Char) := fun _ => none

/-- A concrete instantiation of the abstracted ISO round-trip in which every
parse succeeds and re-renders the input unchanged; used only in closed
instances. -/
def someIso : List Char → Option (List Char) := fun s => some s

/-- The initial loop state of `translate` (lines 301–303). -/
def initState : TranslateState := ⟨[], 0, 0⟩

/-- The synthetic record of the end-to-end spec example: family name
"Test Font", free, designer "Jane", and nothing else. -/
def testFontRec : RawFont :=
  ⟨"Test Font".data, none, [], "Jane".data, [], none, true, [], [], none, [], none, []⟩

/-- First of two records sharing the family name "Dup Font". -/
def dupA : RawFont :=
  ⟨"Dup Font".data, none, [], "Alice".data, [], none, true, [], [], none, [], none, []⟩

/-- Second of two records sharing the family name "Dup Font"; it differs
from `dupA` in its designer, so the two produced entries differ. -/
def dupB : RawFont :=
  ⟨"Dup Font".data, none, [], "Bob".data, [], none, true, [], [], none, [], none, []⟩

/-- A record with empty (missing) family name. -/
def emptyNameRec : RawFont :=
  ⟨[], none, [], "Jane".data, [], none, true, [], [], none, [], none, []⟩

/-- A record satisfying every popularity bonus condition but listing only
two font files. -/
def twoFileRec : RawFont :=
  ⟨"Two".data, none, [], "Jane".data, "Foundry".data, none, true, "Desc".data, [],
   none, [], none, [⟨none, "u".data, []⟩, ⟨none, "u".data, []⟩]⟩

/-- A record satisfying every popularity bonus condition and listing eight
font files. -/
def eightFileRec : RawFont :=
  ⟨"Eight".data, none, [], "Jane".data, "Foundry".data, none, true, "Desc".data, [],
   none, [], none, List.replicate 8 ⟨none, "u".data, []⟩⟩

/-- A record carrying a nonempty `updated_at`. -/
def updatedRec : RawFont :=
  ⟨"Upd".data, none, [], [], [], none, false, [], [],
   none, "2023-01-05T10:00:00Z".data, none, []⟩

/-- A record listing twenty font files, each with a ttf URL. -/
def twentyFileRec : RawFont :=
  ⟨"Twenty".data, none, [], [], [], none, true, [], [],
   none, [], none, List.replicate 20 ⟨none, "u".data, []⟩⟩

/-- Substring containment is preserved when the needle shrinks to one of
its own substrings. -/
theorem containsIn_trans {n m l : List Char} (h : n <:+: m)
    (hm : containsIn m l = true) : containsIn n l = true := by
  unfold containsIn at *
  exact decide_eq_true ( List.IsInfix.trans h (of_decide_eq_true hm))

/-- Any string containing "extra-bold" or "ultra-bold" also contains "bold". -/
theorem boldFromExtra (l : List Char)
    (h : (containsIn "extra-bold".data l || containsIn "ultra-bold".data l) = true) :
    containsIn "bold".data l = true := by
  cases he : containsIn "extra-bold".data l with
  | true => exact containsIn_trans (by decide) he
  | false =>
      rw [he] at h
      simp only [Bool.false_or] at h
      exact containsIn_trans (by decide) h

/-- Inserting a key absent from an association list appends it to the key list. -/
theorem dictInsert_keys (m : List (List Char × FontEntry)) (k : List Char) (v : FontEntry)
    (h : k ∉ m.map Prod.fst) :
    (dictInsert m k v).map Prod.fst = m.map Prod.fst ++ [k] := by
  induction m with
  | nil => rfl
  | cons p t ih =>
      obtain ⟨k1, v1⟩ := p
      rw [List.map_cons] at h
      simp only [dictInsert]
      split
      · rename_i hk
        rw [hk] at h
        exact absurd (List.mem_cons_self _ _) h
      · have htail : k ∉ t.map Prod.fst := fun hmem => h (List.mem_cons_of_mem _ hmem)
        simp [ih htail]

/-- Inserting a key always makes it map to the new value. -/
theorem dictLookup_dictInsert (m : List (List Char × FontEntry)) (k : List Char)
    (v : FontEntry) : dictLookup (dictInsert m k v) k = some v := by
  induction m with
  | nil => simp [dictInsert, dictLookup]
  | cons p t ih =>
      obtain ⟨k1, v1⟩ := p
      simp only [dictInsert]
      split
      · simp [dictLookup]
      · rename_i hk
        simp only [dictLookup]
        rw [if_neg hk]
        exact ih

/-- The translation loop, started anywhere disjoint from the upcoming keys,
appends exactly the keys of the successfully transformed records, provided
those keys are pairwise distinct. -/
theorem fold_fonts_keys (normIso : List Char → Option (List Char)) (raws : List RawFont) :
    ∀ st : TranslateState,
    (∀ k ∈ successKeys normIso raws, k ∉ st.fonts.map Prod.fst) →
    (successKeys normIso raws).Nodup →
    ((raws.foldl (translateStep normIso) st).fonts).map Prod.fst
      = st.fonts.map Prod.fst ++ successKeys normIso raws := by
  induction raws with
  | nil =>
      intro st _ _
      simp [successKeys]
  | cons r t ih =>
      intro st hdisj hnodup
      rw [List.foldl_cons]
      cases htr : transformFont normIso r with
      | none =>
          have hkeys : successKeys normIso (r :: t) = successKeys normIso t := by
            simp [successKeys, List.filter_cons, htr]
          rw [hkeys] at hdisj hnodup
          have hstep : translateStep normIso st r = ⟨st.fonts, st.processed, st.skipped + 1⟩ := by
            simp [translateStep, htr]
          rw [hstep, hkeys]
          exact ih _ hdisj hnodup
      | some e =>
          have hkeys : successKeys normIso (r :: t)
              = fontKey r.family_name :: successKeys normIso t := by
            simp [successKeys, List.filter_cons, htr]
          rw [hkeys] at hdisj hnodup
          have hstep : translateStep normIso st r
              = ⟨dictInsert st.fonts (fontKey r.family_name) e, st.processed + 1, st.skipped⟩ := by
            simp [translateStep, htr]
          rw [hstep, hkeys]
          have hknot : fontKey r.family_name ∉ st.fonts.map Prod.fst :=
            hdisj _ (List.mem_cons_self _ _)
          have hkeysnew : (dictInsert st.fonts (fontKey r.family_name) e).map Prod.fst
              = st.fonts.map Prod.fst ++ [fontKey r.family_name] :=
            dictInsert_keys _ _ _ hknot
          have hdisj2 : ∀ k ∈ successKeys normIso t,
              k ∉ (dictInsert st.fonts (fontKey r.family_name) e).map Prod.fst := by
            intro k hk hmem
            rw [hkeysnew] at hmem
            rcases List.mem_append.mp hmem with hm | hm
            · exact hdisj k (List.mem_cons_of_mem _ hk) hm
            · have hkeq : k = fontKey r.family_name := by simpa using hm
              have hne := (List.nodup_cons.mp hnodup).1
              exact hne (hkeq ▸ hk)
          have hnodup2 := (List.nodup_cons.mp hnodup).2
          have hrec := ih ⟨dictInsert st.fonts (fontKey r.family_name) e,
            st.processed + 1, st.skipped⟩ hdisj2 hnodup2
          rw [hrec, hkeysnew]
          simp

/-- C1 counterexample: on the variant name "Extra Bold Italic" the weight
parser returns 700, not the 800 stated by the claim, because the check for
"bold" precedes the check for "extra-bold" and matches first. -/
theorem parseWeight_extra_bold_italic_eq_700 :
    parseWeight "Extra Bold Italic".data = 700 ∧ (700 : Nat) ≠ 800 := by decide

/-- C1 (amended): the weight parser is the first-match-wins lookup over the
priority table thin/hairline 100, extra-light/ultra-light 200, light 300,
regular/normal 400, medium 500, semi-bold/demi-bold 600, bold 700,
extra-bold/ultra-bold 800, black/heavy 900, default 400, applied to the
lowercased variant name; "Extra Bold Italic" yields weight 700 (the "bold"
row matches first) and style "italic", "Regular" yields weight 400 and
style "normal", and the unrecognized name "Funky" yields weight 400. -/
theorem parseWeight_priority_and_examples :
    (∀ s, parseWeight s = parseWeightSpec s) ∧
    parseWeight "Extra Bold Italic".data = 700 ∧
    parseStyle "Extra Bold Italic".data = "italic".data ∧
    parseWeight "Regular".data = 400 ∧
    parseStyle "Regular".data = "normal".data ∧
    parseWeight "Funky".data = 400 := by
  refine ⟨fun s => ?_, by decide, by decide, by decide, by decide, by decide⟩
  simp only [parseWeight, parseWeightSpec, weightTable, firstMatch, List.any_cons,
    List.any_nil, Bool.or_false]

/-- C1 witness: the priority-table characterization evaluated at a
concrete input. -/
theorem parseWeight_priority_witness :
    parseWeight "Light".data = parseWeightSpec "Light".data :=
  parseWeight_priority_and_examples.1 "Light".data

/-- C9: the weight parser never returns 800 — the substring check for
"bold" runs before those for "extra-bold" and "ultra-bold", and both of
those contain "bold", so the 800 branch is unreachable for every input. -/
theorem parseWeight_never_800 (s : List Char) :
    (parseWeight s == 800) = false := by
  simp only [parseWeight]
  repeat' split
  all_goals try decide
  rename_i h7 h8
  exact absurd (boldFromExtra _ h8) h7

/-- C9 witness: even the name "Extra Bold" does not reach 800. -/
theorem parseWeight_never_800_witness :
    (parseWeight "Extra Bold".data == 800) = false :=
  parseWeight_never_800 "Extra Bold".data

/-- C3 counterexample: slug-key derivation is not injective — the distinct
family names "Foo Bar" and "Foo_Bar" derive the same key. -/
theorem fontKey_not_injective :
    fontKey "Foo Bar".data = fontKey "Foo_Bar".data ∧
    "Foo Bar".data ≠ "Foo_Bar".data := by decide

/-- C3 (amended): slug-key derivation is a deterministic pure function of
the family name — but not injective — and "Open Sans" yields a key ending
in "open-sans" while "Foo_Bar" yields a key ending in "foo-bar". -/
theorem fontKey_deterministic_and_examples :
    (∀ a b : List Char, a = b → fontKey a = fontKey b) ∧
    "open-sans".data <:+ fontKey "Open Sans".data ∧
    "foo-bar".data <:+ fontKey "Foo_Bar".data := by
  refine ⟨fun a b h => by rw [h], by decide, by decide⟩

/-- C3 witness: determinism evaluated at a concrete input. -/
theorem fontKey_deterministic_witness :
    fontKey "Open Sans".data = fontKey "Open Sans".data :=
  fontKey_deterministic_and_examples.1 "Open Sans".data "Open Sans".data rfl

/-- C4 counterexample: a record satisfying every bonus condition but
listing only two font files scores 99, not 100 — the file bonus is
min(2×2, 15) = 4, so 50+20+10+10+5+4 = 99. -/
theorem calculatePopularity_two_files_eq_99 :
    twoFileRec.is_free = true ∧ twoFileRec.description ≠ [] ∧
    twoFileRec.designer ≠ [] ∧ twoFileRec.foundry ≠ [] ∧
    1 < twoFileRec.font_files.length ∧
    calculatePopularity twoFileRec = 99 ∧
    calculatePopularity twoFileRec ≠ 100 := by decide

/-- C4 (amended): the popularity score equals base 50 plus the independent
bonuses clamped at 100, is always at most 100 (and, being a natural number,
at least 0); a record satisfying every bonus condition reaches exactly 100
once its file list has at least 8 entries (so that the file bonus is the
full 15). -/
theorem calculatePopularity_spec (r : RawFont) :
    calculatePopularity r = popularitySpec r ∧
    calculatePopularity r ≤ 100 ∧
    (r.is_free = true → (r.description ≠ [] ∨ r.short_description ≠ []) →
      r.designer ≠ [] → r.foundry ≠ [] → 8 ≤ r.font_files.length →
      calculatePopularity r = 100) := by
  have heq : calculatePopularity r = popularitySpec r := by
    simp only [calculatePopularity, popularitySpec]
    split_ifs <;> omega
  refine ⟨heq, ?_, ?_⟩
  · rw [heq]
    exact min_le_right _ _
  · intro hfree hdesc hdes hfou hfil
    rw [heq]
    unfold popularitySpec
    rw [hfree]
    have h1 : (!r.description.isEmpty || !r.short_description.isEmpty) = true := by
      rcases hdesc with h | h <;> simp [List.isEmpty_iff, h]
    have h2 : (!r.designer.isEmpty) = true := by simp [List.isEmpty_iff, hdes]
    have h3 : (!r.foundry.isEmpty) = true := by simp [List.isEmpty_iff, hfou]
    rw [h1, h2, h3]
    have h4 : 1 < r.font_files.length := by omega
    simp only [h4, if_true, if_pos]
    omega

/-- C4 witness: a record with every bonus and eight files scores 100. -/
theorem calculatePopularity_spec_witness :
    calculatePopularity eightFileRec = 100 :=
  (calculatePopularity_spec eightFileRec).2.2 rfl (Or.inl (by decide))
    (by decide) (by decide) (by decide)

/-- C5: for every raw record — whether the variants come from an explicit
file list of any length or from the synthesized fallback table — the
variant list has length at most 5. -/
theorem extractVariants_length_le_five (r : RawFont) :
    (extractVariants r).length ≤ 5 := by
  simp only [extractVariants]
  rw [List.length_take]
  omega

/-- C5 witness: a record with an explicit list of twenty font files still
gets at most five variants. -/
theorem extractVariants_length_witness :
    (extractVariants twentyFileRec).length ≤ 5 :=
  extractVariants_length_le_five twentyFileRec

/-- C7: a record whose family name is missing or empty transforms to
`none`, and the translation loop leaves the output mapping (and the
processed counter) unchanged on such a record. -/
theorem transformFont_none_of_empty_family (normIso : List Char → Option (List Char))
    (r : RawFont) (st : TranslateState) (h : r.family_name = []) :
    transformFont normIso r = none ∧
    (translateStep normIso st r).fonts = st.fonts ∧
    (translateStep normIso st r).processed = st.processed := by
  have h0 : transformFont normIso r = none := by simp [transformFont, h]
  exact ⟨h0, by simp [translateStep, h0], by simp [translateStep, h0]⟩

/-- C7 witness: evaluated on a concrete record with empty family name. -/
theorem transformFont_none_witness :
    transformFont noIso emptyNameRec = none ∧
    (translateStep noIso initState emptyNameRec).fonts = initState.fonts ∧
    (translateStep noIso initState emptyNameRec).processed = initState.processed :=
  transformFont_none_of_empty_family noIso emptyNameRec initState rfl

/-- C8: every record with a nonempty family name produces an entry whose
`last_modified` is exactly the `lastModified` computation: empty when
`updated_at` is absent, the re-rendering with a trailing "Z" appended when
the (abstracted) ISO parse succeeds on the Z-normalized input, and empty
when that parse fails — a parse failure never drops the record. -/
theorem transformFont_last_modified (normIso : List Char → Option (List Char))
    (r : RawFont) (h : r.family_name ≠ []) :
    (transformFont normIso r).map (fun e => e.last_modified)
      = some (lastModified normIso r) ∧
    (r.updated_at = [] → lastModified normIso r = []) ∧
    (∀ t, r.updated_at ≠ [] →
        normIso (replaceChar 'Z' "+00:00".data r.updated_at) = some t →
        lastModified normIso r = t ++ "Z".data) ∧
    (r.updated_at ≠ [] →
        normIso (replaceChar 'Z' "+00:00".data r.updated_at) = none →
        lastModified normIso r = []) := by
  have hne : r.family_name.isEmpty = false := by simpa [List.isEmpty_iff] using h
  refine ⟨by simp [transformFont, hne], ?_, ?_, ?_⟩
  · intro hu
    simp [lastModified, hu]
  · intro t hu hn
    have hu2 : r.updated_at.isEmpty = false := by simpa [List.isEmpty_iff] using hu
    simp [lastModified, hu2, hn]
  · intro hu hn
    have hu2 : r.updated_at.isEmpty = false := by simpa [List.isEmpty_iff] using hu
    simp [lastModified, hu2, hn]

/-- C8 witness: evaluated on a concrete record with an `updated_at`, under
an ISO round-trip that succeeds and renders the input unchanged. -/
theorem transformFont_last_modified_witness :
    (transformFont someIso updatedRec).map (fun e => e.last_modified)
      = some (lastModified someIso updatedRec) :=
  (transformFont_last_modified someIso updatedRec (by decide)).1

/-- C2 counterexample: two records sharing one derived key both transform
successfully, yet the output header counts only one font. -/
theorem translate_total_fonts_duplicate_cex :
    (translate noIso [dupA, dupB]).total_fonts = 1 ∧
    successCount noIso [dupA, dupB] = 2 ∧
    (translate noIso [dupA, dupB]).total_fonts ≠ successCount noIso [dupA, dupB] := by
  decide

/-- C2 (amended): for every non-empty fetched record list whose
successfully transformed records derive pairwise distinct keys, the output
header field `total_fonts` equals the number of successfully transformed
records. -/
theorem translate_total_fonts_of_distinct_keys (normIso : List Char → Option (List Char))
    (raws : List RawFont) (hne : raws ≠ [])
    (hnodup : (successKeys normIso raws).Nodup) :
    (translate normIso raws).total_fonts = successCount normIso raws := by
  have hkeys := fold_fonts_keys normIso raws ⟨[], 0, 0⟩ (by simp) hnodup
  have hlen := congrArg List.length hkeys
  simp only [List.length_map, List.length_append, List.length_nil, Nat.zero_add] at hlen
  unfold translate
  rw [if_neg (by simpa [List.isEmpty_iff] using hne)]
  simpa [successCount, successKeys] using hlen

/-- C2 witness: the amended statement evaluated on a one-record list. -/
theorem translate_total_fonts_witness :
    (translate noIso [testFontRec]).total_fonts = successCount noIso [testFontRec] :=
  translate_total_fonts_of_distinct_keys noIso [testFontRec] (by simp) (by decide)

/-- C10: dictionary insertion overwrites — after inserting a key its lookup
yields the new value — and on two records sharing a key the output keeps
exactly the entry produced from the last record, the loop counts both
successes in `processed`, and `total_fonts` (1) is strictly less than the
number of successfully transformed records (2). -/
theorem translate_duplicate_keys_keep_last :
    (∀ m k v, dictLookup (dictInsert m k v) k = some v) ∧
    (translate noIso [dupA, dupB]).total_fonts = 1 ∧
    (([dupA, dupB]).foldl (translateStep noIso) initState).processed = 2 ∧
    successCount noIso [dupA, dupB] = 2 ∧
    (translate noIso [dupA, dupB]).total_fonts < successCount noIso [dupA, dupB] ∧
    dictLookup (translate noIso [dupA, dupB]).fonts (fontKey dupA.family_name)
      = transformFont noIso dupB := by
  refine ⟨dictLookup_dictInsert, by decide, by decide, by decide, by decide, by decide⟩

/-- C10 witness: the duplicate-key document indeed reports one font. -/
theorem translate_duplicate_keys_witness :
    (translate noIso [dupA, dupB]).total_fonts = 1 :=
  translate_duplicate_keys_keep_last.2.1

/-- C6: the pipeline applied to the single synthetic record with family
name "Test Font", free, designer "Jane" and no file list yields exactly one
entry, under the key "squirrel.test-font" (which ends in "test-font"), with
tags exactly ["free"], exactly 5 variants all with subsets ["latin"], and
popularity 80 — independently of the abstracted ISO round-trip, which the
record never exercises. -/
theorem translate_single_record_end_to_end (normIso : List Char → Option (List Char)) :
    (translate normIso [testFontRec]).fonts.map Prod.fst = ["squirrel.test-font".data] ∧
    "test-font".data <:+ fontKey testFontRec.family_name ∧
    (translate normIso [testFontRec]).fonts.map (fun p => p.2.tags) = [["free".data]] ∧
    (translate normIso [testFontRec]).fonts.map (fun p => p.2.variants.length) = [5] ∧
    (translate normIso [testFontRec]).fonts.map
        (fun p => p.2.variants.map (fun v => v.subsets)) = [List.replicate 5 ["latin".data]] ∧
    (translate normIso [testFontRec]).fonts.map (fun p => p.2.popularity) = [80] :=
  ⟨rfl, by decide, rfl, rfl, rfl, rfl⟩

/-- C6 witness: the end-to-end statement under a concrete ISO round-trip. -/
theorem translate_single_record_witness :
    (translate noIso [testFontRec]).fonts.map (fun p => p.2.popularity) = [80] :=
  (translate_single_record_end_to_end noIso).2.2.2.2.2

end FontSquirrel
